import Mathlib

/-!
Verification of the task-scheduler backend (streamlit_app) against its
specification.  The Python modules `db.py`, `scheduler.py` and `pomodoro.py`
are shallowly embedded: SQLite tables become lists of records kept in id
order (table-scan order), timestamps become integer seconds, and each
stateful operation becomes a pure state transformer.  Side effects
(notifications, log inserts) are made explicit as returned lists.
-/

namespace TaskSchedulerProof

/-! ## Data model: the `reminders` table (db.py)

A row of the `reminders` table: `id INTEGER PRIMARY KEY`, `task_id INTEGER`,
`remind_at TEXT` (ISO timestamp, modelled as integer seconds so that the
SQLite `datetime(...) <= datetime(...)` comparison becomes integer `≤`),
`sent INTEGER DEFAULT 0` (modelled as Bool). -/
structure Reminder where
  id : Nat
  task_id : Option Nat
  remind_at : Int
  sent : Bool
  deriving DecidableEq, Repr

/-- Embeds `db.get_due_unsent_reminders(now_iso)`: `SELECT ... FROM reminders r
WHERE r.sent = 0 AND datetime(r.remind_at) <= datetime(?) ORDER BY r.remind_at ASC`. -/
def get_due_unsent_reminders (db : List Reminder) (now : Int) : List Reminder :=
  (db.filter (fun r => r.sent == false && decide (r.remind_at ≤ now))).mergeSort
    (fun a b => decide (a.remind_at ≤ b.remind_at))

/-- Embeds `db.mark_reminder_sent(reminder_id)`:
`UPDATE reminders SET sent = 1 WHERE id = ?`. -/
def mark_reminder_sent (db : List Reminder) (reminder_id : Nat) : List Reminder :=
  db.map (fun r => if r.id == reminder_id then { r with sent := true } else r)

/-- Embeds the SQL row lookup `SELECT ... FROM reminders WHERE id = ?` used to
observe the table state; with primary-key-unique ids it returns the row. -/
def lookup (db : List Reminder) (rid : Nat) : Option Reminder :=
  db.find? (fun r => r.id == rid)

/-! ## scheduler.py -/

/-- Module-level mutable state of `scheduler.py`: `_interval_seconds`,
`_notifications_enabled`, and whether `_stop_event` is set. -/
structure SchedulerGlobals where
  interval_seconds : Int
  notifications_enabled : Bool
  stop_event_set : Bool
  deriving DecidableEq, Repr

/-- Embeds `update_scheduler_config(interval_seconds=None, notifications_enabled=None)`:
under `_config_lock`, each field that is not `None` is stored; nothing else is
touched (in particular `_stop_event` is not signalled). -/
def update_scheduler_config (interval_seconds : Option Int)
    (notifications_enabled : Option Bool) (g : SchedulerGlobals) : SchedulerGlobals :=
  let g := match interval_seconds with
    | some i => { g with interval_seconds := i }
    | none => g
  match notifications_enabled with
  | some b => { g with notifications_enabled := b }
  | none => g

/-- Embeds the effect of `stop_scheduler()` on the loop: `_stop_event.set()`. -/
def stop_scheduler (g : SchedulerGlobals) : SchedulerGlobals :=
  { g with stop_event_set := true }

/-- Embeds the wake condition of the sleep in `_loop`:
`_stop_event.wait(timeout=...)` returns before the timeout exactly when
`_stop_event` is set. -/
def sleep_wakes_early (g : SchedulerGlobals) : Bool :=
  g.stop_event_set

/-- Embeds the timeout passed to `_stop_event.wait` in `_loop`:
`max(5, int(interval))`. -/
def loop_sleep_timeout (interval : Int) : Int :=
  max 5 interval

/-- Embeds the `for r in due:` body of `_loop`: for each due reminder, notify
when `do_notify` holds, then `db.mark_reminder_sent(r["id"])` unconditionally.
Returns the updated table together with the list of reminder ids for which the
notifier was invoked, in processing order. -/
def process_due (do_notify : Bool) (due : List Reminder) (db : List Reminder) :
    List Reminder × List Nat :=
  match due with
  | [] => (db, [])
  | r :: rest =>
      let db1 := mark_reminder_sent db r.id
      let rec_result := process_due do_notify rest db1
      (rec_result.1, (if do_notify then [r.id] else []) ++ rec_result.2)

/-- Embeds one iteration of `_loop` in `scheduler.py`: fetch the due unsent
reminders for `now`, snapshot `do_notify` from the config, process each due
reminder, and compute the sleep timeout from the current interval.  Returns
the updated table, the notified ids, and the sleep timeout. -/
def scheduler_iteration (g : SchedulerGlobals) (now : Int) (db : List Reminder) :
    List Reminder × List Nat × Int :=
  let due := get_due_unsent_reminders db now
  let do_notify := g.notifications_enabled
  let processed := process_due do_notify due db
  (processed.1, processed.2, loop_sleep_timeout g.interval_seconds)

/-! ## Claims C5 and C7 -/

/-- C5: for every configured value of `poll_interval_seconds`, the sleep
between Scheduler iterations lasts `max(5, poll_interval_seconds)` seconds,
hence always at least 5; in particular configuring 1 gives an effective
interval of 5. -/
theorem scheduler_sleep_floor (g : SchedulerGlobals) (now : Int) (db : List Reminder) :
    (scheduler_iteration g now db).2.2 = max 5 g.interval_seconds ∧
    5 ≤ (scheduler_iteration g now db).2.2 ∧
    (scheduler_iteration { g with interval_seconds := 1 } now db).2.2 = 5 := by
  refine ⟨rfl, ?_, rfl⟩
  simp only [scheduler_iteration, loop_sleep_timeout]
  exact le_max_left 5 g.interval_seconds

/-- C7 counterexample: with the loop sleeping (stop event not set, configured
interval 60), a call to `update_scheduler_config` shrinking the interval to 1
does not wake the sleep early: the wait still only unblocks on the stop
event, which the update leaves unset. -/
theorem update_config_does_not_wake_sleep :
    sleep_wakes_early (update_scheduler_config (some 1) none
      { interval_seconds := 60, notifications_enabled := true, stop_event_set := false })
      = false := rfl

/-- C7 amended: the inter-iteration sleep is interruptible only by `stop()`:
`update_scheduler_config` stores the new interval and notification flag but
never changes the stop event the sleep waits on, so a shrunk interval takes
effect only once the in-progress sleep of the stale interval completes;
`stop_scheduler` does wake the sleep. -/
theorem update_config_preserves_stop_event (i : Option Int) (b : Option Bool)
    (g : SchedulerGlobals) :
    (update_scheduler_config i b g).stop_event_set = g.stop_event_set ∧
    sleep_wakes_early (stop_scheduler g) = true := by
  constructor
  · cases i <;> cases b <;> rfl
  · rfl

/-! ## db.py: `_upsert_initial_reminder` (called by `create_task` / `update_task`) -/

/-- Embeds `_upsert_initial_reminder(cur, task_id, due_iso)`: if `due_iso` is
falsy, do nothing; otherwise `SELECT id, sent FROM reminders WHERE task_id = ?
ORDER BY id ASC LIMIT 1` (the list is kept in id order, so this is `find?`);
when a row exists, `UPDATE reminders SET remind_at = ?, sent = 0 WHERE id = ?`,
else `INSERT INTO reminders (task_id, remind_at, sent, ...) VALUES (?, ?, 0, ...)`
with the fresh autoincrement id `next_id`. -/
def upsert_initial_reminder (db : List Reminder) (task_id : Nat) (due_iso : Option Int)
    (next_id : Nat) : List Reminder :=
  match due_iso with
  | none => db
  | some d =>
    match db.find? (fun r => r.task_id == some task_id) with
    | some existing =>
        db.map (fun r => if r.id == existing.id then { r with remind_at := d, sent := false } else r)
    | none => db ++ [{ id := next_id, task_id := some task_id, remind_at := d, sent := false }]

/-- One `create_task`/`update_task` call as it affects the reminders table:
the task id whose due time is being set, the due timestamp (None when the
task has no due time), and the autoincrement id an insert would receive. -/
structure UpsertOp where
  task_id : Nat
  due_iso : Option Int
  next_id : Nat
  deriving DecidableEq, Repr

/-- Runs a sequence of `create_task`/`update_task` calls, each performing its
`_upsert_initial_reminder` step on the reminders table. -/
def apply_upserts (ops : List UpsertOp) (db : List Reminder) : List Reminder :=
  match ops with
  | [] => db
  | op :: rest => apply_upserts rest (upsert_initial_reminder db op.task_id op.due_iso op.next_id)

/-- Number of reminder rows for a given task
(`SELECT COUNT(*) FROM reminders WHERE task_id = ?`). -/
def countFor (db : List Reminder) (tid : Nat) : Nat :=
  (db.filter (fun r => r.task_id == some tid)).length

/-- Number of unsent reminder rows for a given task
(`SELECT COUNT(*) FROM reminders WHERE task_id = ? AND sent = 0`). -/
def unsentFor (db : List Reminder) (tid : Nat) : Nat :=
  (db.filter (fun r => r.task_id == some tid && r.sent == false)).length

theorem find?_head_filter {α : Type} (p : α → Bool) (l : List α) :
    l.find? p = (l.filter p).head? := by
  induction l with
  | nil => rfl
  | cons a t ih =>
      by_cases h : p a
      · rw [List.find?_cons_of_pos _ h, List.filter_cons_of_pos h, List.head?_cons]
      · rw [List.find?_cons_of_neg _ h, List.filter_cons_of_neg h, ih]

theorem unsentFor_eq (db : List Reminder) (tid : Nat) :
    unsentFor db tid =
      ((db.filter (fun r => r.task_id == some tid)).filter (fun r => r.sent == false)).length := by
  unfold unsentFor
  rw [List.filter_filter]
  congr 1
  apply List.filter_congr
  intro a _
  exact Bool.and_comm _ _

theorem unsentFor_le_countFor (db : List Reminder) (tid : Nat) :
    unsentFor db tid ≤ countFor db tid := by
  rw [unsentFor_eq]
  exact List.length_filter_le _ _

theorem countFor_map_of_preserves (db : List Reminder) (tid : Nat)
    (f : Reminder → Reminder) (hf : ∀ r, (f r).task_id = r.task_id) :
    countFor (db.map f) tid = countFor db tid := by
  unfold countFor
  rw [List.filter_map]
  have hp : ((fun r => r.task_id == some tid) ∘ f) = (fun r => r.task_id == some tid) := by
    funext r
    simp [Function.comp, hf r]
  rw [hp, List.length_map]

theorem update_preserves_task_id (i : Nat) (d : Int) (r : Reminder) :
    ((if r.id == i then { r with remind_at := d, sent := false } else r) : Reminder).task_id
      = r.task_id := by
  by_cases h : r.id == i <;> simp [h]

theorem countFor_upsert_le (db : List Reminder) (tid' : Nat) (d : Option Int) (nid : Nat)
    (tid : Nat) (h : countFor db tid ≤ 1) :
    countFor (upsert_initial_reminder db tid' d nid) tid ≤ 1 := by
  unfold upsert_initial_reminder
  match d with
  | none => exact h
  | some dd =>
    simp only
    cases hf : db.find? (fun r => r.task_id == some tid') with
    | some e =>
        simp only
        rw [countFor_map_of_preserves db tid _ (fun r => update_preserves_task_id e.id dd r)]
        exact h
    | none =>
        simp only
        have hnone : ∀ x ∈ db, ¬((x.task_id == some tid') = true) := List.find?_eq_none.mp hf
        unfold countFor
        rw [List.filter_append, List.length_append]
        by_cases htid : tid = tid'
        · subst htid
          have hz : db.filter (fun r => r.task_id == some tid) = [] := by
            rw [List.filter_eq_nil_iff]
            exact hnone
          simp [hz]
        · have : (({ id := nid, task_id := some tid', remind_at := dd, sent := false } :
              Reminder).task_id == some tid) = false := by
            simp
            exact fun hcontra => htid hcontra.symm
          simp only [List.filter, this]
          simpa using h

theorem countFor_apply_upserts_le (ops : List UpsertOp) (db : List Reminder)
    (h : ∀ t, countFor db t ≤ 1) : ∀ t, countFor (apply_upserts ops db) t ≤ 1 := by
  induction ops generalizing db with
  | nil => exact h
  | cons op rest ih =>
      exact ih _ (fun t => countFor_upsert_le db op.task_id op.due_iso op.next_id t (h t))

theorem upsert_insert_eq (db : List Reminder) (tid : Nat) (d : Int) (nid : Nat)
    (h : countFor db tid = 0) :
    upsert_initial_reminder db tid (some d) nid
      = db ++ [{ id := nid, task_id := some tid, remind_at := d, sent := false }] := by
  have hnil : db.filter (fun r => r.task_id == some tid) = [] := List.length_eq_zero.mp h
  have hf : db.find? (fun r => r.task_id == some tid) = none := by
    rw [find?_head_filter, hnil]
    rfl
  simp [upsert_initial_reminder, hf]

theorem upsert_update_length (db : List Reminder) (tid : Nat) (d : Int) (nid : Nat)
    (h : 0 < countFor db tid) :
    (upsert_initial_reminder db tid (some d) nid).length = db.length := by
  obtain ⟨e, he⟩ : ∃ e, db.find? (fun r => r.task_id == some tid) = some e := by
    rw [find?_head_filter]
    cases hfil : db.filter (fun r => r.task_id == some tid) with
    | nil =>
        unfold countFor at h
        rw [hfil] at h
        simp at h
    | cons x xs => exact ⟨x, rfl⟩
  simp [upsert_initial_reminder, he]

theorem unsentFor_upsert_eq_one (db : List Reminder) (tid : Nat) (d : Int) (nid : Nat)
    (h : countFor db tid ≤ 1) :
    unsentFor (upsert_initial_reminder db tid (some d) nid) tid = 1 := by
  rcases Nat.le_one_iff_eq_zero_or_eq_one.mp h with h0 | h1
  · rw [upsert_insert_eq db tid d nid h0]
    have hu : unsentFor db tid = 0 := by
      have := unsentFor_le_countFor db tid
      omega
    unfold unsentFor at hu ⊢
    rw [List.filter_append, List.length_append, hu]
    simp
  · unfold countFor at h1
    obtain ⟨e, hfil⟩ := List.length_eq_one.mp h1
    have hfind : db.find? (fun r => r.task_id == some tid) = some e := by
      rw [find?_head_filter, hfil]
      rfl
    simp only [upsert_initial_reminder, hfind]
    rw [unsentFor_eq, List.filter_map]
    have hcomp : ((fun (r : Reminder) => r.task_id == some tid) ∘
        (fun (r : Reminder) => if r.id == e.id then { r with remind_at := d, sent := false } else r))
        = (fun (r : Reminder) => r.task_id == some tid) := by
      funext r
      simp only [Function.comp]
      rw [update_preserves_task_id e.id d r]
    rw [hcomp, hfil]
    simp

/-- C2: under any sequence of `create_task`/`update_task` due-time upserts,
each task keeps at most one reminder row (hence at most one unsent one);
a single upsert inserts a fresh unsent row exactly when the task has no
reminder row, updates in place (no new row) when it has one, and in either
case leaves exactly one unsent reminder row for that task. -/
theorem at_most_one_unsent_reminder (db : List Reminder) (ops : List UpsertOp)
    (h : ∀ t, countFor db t ≤ 1) :
    (∀ t, countFor (apply_upserts ops db) t ≤ 1) ∧
    (∀ t, unsentFor (apply_upserts ops db) t ≤ 1) ∧
    (∀ tid d nid, countFor db tid = 0 →
        upsert_initial_reminder db tid (some d) nid
          = db ++ [{ id := nid, task_id := some tid, remind_at := d, sent := false }]) ∧
    (∀ tid d nid, 0 < countFor db tid →
        (upsert_initial_reminder db tid (some d) nid).length = db.length) ∧
    (∀ tid d nid, unsentFor (upsert_initial_reminder db tid (some d) nid) tid = 1) := by
  refine ⟨countFor_apply_upserts_le ops db h, ?_, ?_, ?_, ?_⟩
  · intro t
    exact le_trans (unsentFor_le_countFor _ t) (countFor_apply_upserts_le ops db h t)
  · intro tid d nid h0
    exact upsert_insert_eq db tid d nid h0
  · intro tid d nid hpos
    exact upsert_update_length db tid d nid hpos
  · intro tid d nid
    exact unsentFor_upsert_eq_one db tid d nid (h tid)

/-- Witness for C2: setting task 1's due time twice starting from an empty
reminders table leaves at most one row and at most one unsent row for it. -/
theorem at_most_one_unsent_reminder_witness :
    countFor (apply_upserts [⟨1, some 5, 1⟩, ⟨1, some 7, 2⟩] []) 1 ≤ 1 ∧
    unsentFor (apply_upserts [⟨1, some 5, 1⟩, ⟨1, some 7, 2⟩] []) 1 ≤ 1 :=
  ⟨(at_most_one_unsent_reminder [] [⟨1, some 5, 1⟩, ⟨1, some 7, 2⟩]
      (fun t => by simp [countFor])).1 1,
   (at_most_one_unsent_reminder [] [⟨1, some 5, 1⟩, ⟨1, some 7, 2⟩]
      (fun t => by simp [countFor])).2.1 1⟩

/-! ## Lemmas about lookups and the scheduler loop body -/

theorem lookup_map_of_preserves_id (db : List Reminder) (j : Nat) (f : Reminder → Reminder)
    (hf : ∀ r, (f r).id = r.id) :
    lookup (db.map f) j = Option.map f (lookup db j) := by
  unfold lookup
  rw [List.find?_map]
  have hp : ((fun (r : Reminder) => r.id == j) ∘ f) = (fun (r : Reminder) => r.id == j) := by
    funext r
    simp only [Function.comp]
    rw [hf r]
  rw [hp]

theorem lookup_of_mem_nodup (db : List Reminder) (r : Reminder)
    (hids : (db.map Reminder.id).Nodup) (hr : r ∈ db) :
    lookup db r.id = some r := by
  induction db with
  | nil => cases hr
  | cons a t ih =>
      rw [List.map_cons, List.nodup_cons] at hids
      rcases List.mem_cons.mp hr with rfl | hrt
      · unfold lookup
        rw [List.find?_cons_of_pos _ (by simp)]
      · have hane : a.id ≠ r.id := by
          intro he
          exact hids.1 (he ▸ List.mem_map_of_mem Reminder.id hrt)
        unfold lookup
        rw [List.find?_cons_of_neg _ (by simp [hane])]
        exact ih hids.2 hrt

theorem lookup_id_eq (db : List Reminder) (j : Nat) (r : Reminder)
    (h : lookup db j = some r) : r.id = j := by
  have h' : db.find? (fun x => x.id == j) = some r := h
  have := List.find?_some h'
  simpa using this

theorem mem_get_due (db : List Reminder) (now : Int) (r : Reminder) :
    r ∈ get_due_unsent_reminders db now ↔ r ∈ db ∧ r.sent = false ∧ r.remind_at ≤ now := by
  unfold get_due_unsent_reminders
  rw [(List.mergeSort_perm _ _).mem_iff, List.mem_filter]
  simp [and_assoc]

theorem process_due_snd (b : Bool) (due db : List Reminder) :
    (process_due b due db).2 = if b then due.map Reminder.id else [] := by
  induction due generalizing db with
  | nil => cases b <;> rfl
  | cons r rest ih =>
      simp only [process_due, ih]
      cases b <;> simp

/-- The cumulative table effect of the `for r in due` loop: mark each due id
sent, in order. -/
def mark_all (db : List Reminder) (ids : List Nat) : List Reminder :=
  match ids with
  | [] => db
  | i :: rest => mark_all (mark_reminder_sent db i) rest

theorem process_due_fst (b : Bool) (due db : List Reminder) :
    (process_due b due db).1 = mark_all db (due.map Reminder.id) := by
  induction due generalizing db with
  | nil => rfl
  | cons r rest ih =>
      simp only [process_due, List.map_cons, mark_all]
      exact ih _

theorem lookup_mark (db : List Reminder) (i j : Nat) :
    lookup (mark_reminder_sent db i) j
      = Option.map (fun r => if r.id == i then { r with sent := true } else r) (lookup db j) := by
  unfold mark_reminder_sent
  exact lookup_map_of_preserves_id db j _ (fun r => by by_cases h : r.id == i <;> simp [h])

theorem lookup_mark_all_not_mem (ids : List Nat) (db : List Reminder) (j : Nat)
    (hj : j ∉ ids) : lookup (mark_all db ids) j = lookup db j := by
  induction ids generalizing db with
  | nil => rfl
  | cons i rest ih =>
      have hji : j ≠ i := fun h => hj (h ▸ List.mem_cons_self i rest)
      have hjr : j ∉ rest := fun h => hj (List.mem_cons_of_mem i h)
      show lookup (mark_all (mark_reminder_sent db i) rest) j = _
      rw [ih _ hjr, lookup_mark]
      cases hl : lookup db j with
      | none => rfl
      | some r =>
          have hrid : r.id = j := lookup_id_eq db j r hl
          simp [hrid, hji]

theorem lookup_mark_all_mem (ids : List Nat) (db : List Reminder) (j : Nat)
    (hj : j ∈ ids) :
    lookup (mark_all db ids) j
      = Option.map (fun r => { r with sent := true }) (lookup db j) := by
  induction ids generalizing db with
  | nil => cases hj
  | cons i rest ih =>
      show lookup (mark_all (mark_reminder_sent db i) rest) j = _
      by_cases hjr : j ∈ rest
      · rw [ih _ hjr, lookup_mark]
        cases hl : lookup db j with
        | none => rfl
        | some r => by_cases hri : r.id = i <;> simp [hri]
      · have hji : j = i := by
          rcases List.mem_cons.mp hj with h | h
          · exact h
          · exact absurd h hjr
        subst hji
        rw [lookup_mark_all_not_mem rest _ j hjr, lookup_mark]
        cases hl : lookup db j with
        | none => rfl
        | some r =>
            have hrid : r.id = j := lookup_id_eq db j r hl
            simp [hrid]

theorem map_id_mark (db : List Reminder) (i : Nat) :
    (mark_reminder_sent db i).map Reminder.id = db.map Reminder.id := by
  unfold mark_reminder_sent
  rw [List.map_map]
  congr 1
  funext r
  by_cases h : r.id == i <;> simp [Function.comp, h]

theorem map_id_mark_all (ids : List Nat) (db : List Reminder) :
    (mark_all db ids).map Reminder.id = db.map Reminder.id := by
  induction ids generalizing db with
  | nil => rfl
  | cons i rest ih =>
      show (mark_all (mark_reminder_sent db i) rest).map _ = _
      rw [ih, map_id_mark]

/-- C1: for a reminder that is unsent and due at the iteration's `now`, one
Scheduler iteration notifies it exactly when notifications are enabled and
marks it sent unconditionally; a second iteration over the resulting table
neither re-notifies nor changes it again, so within a live process the
reminder transitions unsent to sent at most once. -/
theorem reminder_exactly_once_sent (g : SchedulerGlobals) (now : Int) (db : List Reminder)
    (r : Reminder) (hids : (db.map Reminder.id).Nodup) (hr : r ∈ db)
    (hsent : r.sent = false) (hdue : r.remind_at ≤ now) :
    (r.id ∈ (scheduler_iteration g now db).2.1 ↔ g.notifications_enabled = true) ∧
    lookup (scheduler_iteration g now db).1 r.id = some { r with sent := true } ∧
    r.id ∉ (scheduler_iteration g now (scheduler_iteration g now db).1).2.1 ∧
    lookup (scheduler_iteration g now (scheduler_iteration g now db).1).1 r.id
      = some { r with sent := true } := by
  have hmem : r ∈ get_due_unsent_reminders db now :=
    (mem_get_due db now r).mpr ⟨hr, hsent, hdue⟩
  have hidmem : r.id ∈ (get_due_unsent_reminders db now).map Reminder.id :=
    List.mem_map_of_mem Reminder.id hmem
  have h1notes : (scheduler_iteration g now db).2.1
      = if g.notifications_enabled then (get_due_unsent_reminders db now).map Reminder.id
        else [] := process_due_snd _ _ _
  have h1db : (scheduler_iteration g now db).1
      = mark_all db ((get_due_unsent_reminders db now).map Reminder.id) :=
    process_due_fst _ _ _
  have hlook1 : lookup (scheduler_iteration g now db).1 r.id
      = some { r with sent := true } := by
    rw [h1db, lookup_mark_all_mem _ _ _ hidmem, lookup_of_mem_nodup db r hids hr]
    rfl
  have hids1 : ((scheduler_iteration g now db).1.map Reminder.id).Nodup := by
    rw [h1db, map_id_mark_all]
    exact hids
  have hnot2 : r.id ∉
      (get_due_unsent_reminders (scheduler_iteration g now db).1 now).map Reminder.id := by
    intro hmem2
    obtain ⟨x, hx, hxid⟩ := List.mem_map.mp hmem2
    have hxdb := (mem_get_due _ now x).mp hx
    have hlookx : lookup (scheduler_iteration g now db).1 x.id = some x :=
      lookup_of_mem_nodup _ x hids1 hxdb.1
    rw [hxid, hlook1] at hlookx
    have hxeq : ({ r with sent := true } : Reminder) = x := Option.some.inj hlookx
    have : x.sent = true := by rw [← hxeq]
    rw [hxdb.2.1] at this
    exact Bool.false_ne_true this
  have h2notes : (scheduler_iteration g now (scheduler_iteration g now db).1).2.1
      = if g.notifications_enabled
        then (get_due_unsent_reminders (scheduler_iteration g now db).1 now).map Reminder.id
        else [] := process_due_snd _ _ _
  have h2db : (scheduler_iteration g now (scheduler_iteration g now db).1).1
      = mark_all (scheduler_iteration g now db).1
          ((get_due_unsent_reminders (scheduler_iteration g now db).1 now).map Reminder.id) :=
    process_due_fst _ _ _
  refine ⟨?_, hlook1, ?_, ?_⟩
  · rw [h1notes]
    cases hb : g.notifications_enabled with
    | true => simpa using hidmem
    | false => simp
  · rw [h2notes]
    cases hb : g.notifications_enabled with
    | true => simpa using hnot2
    | false => simp
  · rw [h2db, lookup_mark_all_not_mem _ _ _ hnot2]
    exact hlook1

/-- Witness for C1: a single unsent reminder due in the past, with
notifications enabled, is notified and marked sent by one iteration and left
alone by the second. -/
theorem reminder_exactly_once_sent_witness :
    ((1 : Nat) ∈ (scheduler_iteration ⟨60, true, false⟩ 5 [⟨1, some 1, 0, false⟩]).2.1
        ↔ (true = true)) ∧
    lookup (scheduler_iteration ⟨60, true, false⟩ 5 [⟨1, some 1, 0, false⟩]).1 1
      = some ⟨1, some 1, 0, true⟩ ∧
    (1 : Nat) ∉ (scheduler_iteration ⟨60, true, false⟩ 5
        (scheduler_iteration ⟨60, true, false⟩ 5 [⟨1, some 1, 0, false⟩]).1).2.1 ∧
    lookup (scheduler_iteration ⟨60, true, false⟩ 5
        (scheduler_iteration ⟨60, true, false⟩ 5 [⟨1, some 1, 0, false⟩]).1).1 1
      = some ⟨1, some 1, 0, true⟩ :=
  reminder_exactly_once_sent ⟨60, true, false⟩ 5 [⟨1, some 1, 0, false⟩]
    ⟨1, some 1, 0, false⟩ (by decide) (by decide) rfl (by decide)

/-- C10: setting a due time for a task whose reminder row is already sent
updates that row in place, resetting sent to 0 and remind_at to the new due
time; the row is then due again and a Scheduler iteration with notifications
enabled notifies it a second time. -/
theorem sent_reminder_reset_and_renotified (db : List Reminder) (tid : Nat) (d : Int)
    (nid : Nat) (e : Reminder) (now : Int) (g : SchedulerGlobals)
    (hids : (db.map Reminder.id).Nodup)
    (hfind : db.find? (fun r => r.task_id == some tid) = some e)
    (hsent : e.sent = true) (hnow : d ≤ now) (hnotif : g.notifications_enabled = true) :
    lookup (upsert_initial_reminder db tid (some d) nid) e.id
        = some { e with remind_at := d, sent := false } ∧
    { e with remind_at := d, sent := false } ∈
        get_due_unsent_reminders (upsert_initial_reminder db tid (some d) nid) now ∧
    e.id ∈ (scheduler_iteration g now (upsert_initial_reminder db tid (some d) nid)).2.1 := by
  have hups : upsert_initial_reminder db tid (some d) nid
      = db.map (fun r => if r.id == e.id then { r with remind_at := d, sent := false } else r) := by
    simp [upsert_initial_reminder, hfind]
  have hemem : e ∈ db := List.mem_of_find?_eq_some hfind
  have hlook : lookup (upsert_initial_reminder db tid (some d) nid) e.id
      = some { e with remind_at := d, sent := false } := by
    rw [hups, lookup_map_of_preserves_id db e.id _
        (fun r => by by_cases h : r.id == e.id <;> simp [h]),
      lookup_of_mem_nodup db e hids hemem]
    simp
  have hdmem : ({ e with remind_at := d, sent := false } : Reminder) ∈
      get_due_unsent_reminders (upsert_initial_reminder db tid (some d) nid) now := by
    apply (mem_get_due _ now _).mpr
    refine ⟨?_, rfl, hnow⟩
    rw [hups]
    have := List.mem_map_of_mem
      (fun r => if r.id == e.id then { r with remind_at := d, sent := false } else r) hemem
    simpa using this
  refine ⟨hlook, hdmem, ?_⟩
  have hnotes : (scheduler_iteration g now (upsert_initial_reminder db tid (some d) nid)).2.1
      = if g.notifications_enabled
        then (get_due_unsent_reminders (upsert_initial_reminder db tid (some d) nid) now).map
          Reminder.id
        else [] := process_due_snd _ _ _
  rw [hnotes, hnotif]
  simp only [if_true]
  have := List.mem_map_of_mem Reminder.id hdmem
  simpa using this

/-- Witness for C10: a reminder already sent for task 1 is reset to unsent
with the new due time and re-notified by the next Scheduler iteration. -/
theorem sent_reminder_reset_and_renotified_witness :
    lookup (upsert_initial_reminder [⟨1, some 1, 10, true⟩] 1 (some 3) 2) 1
        = some ⟨1, some 1, 3, false⟩ ∧
    (⟨1, some 1, 3, false⟩ : Reminder) ∈
        get_due_unsent_reminders (upsert_initial_reminder [⟨1, some 1, 10, true⟩] 1 (some 3) 2) 5 ∧
    (1 : Nat) ∈ (scheduler_iteration ⟨60, true, false⟩ 5
        (upsert_initial_reminder [⟨1, some 1, 10, true⟩] 1 (some 3) 2)).2.1 :=
  sent_reminder_reset_and_renotified [⟨1, some 1, 10, true⟩] 1 3 2 ⟨1, some 1, 10, true⟩
    5 ⟨60, true, false⟩ (by decide) (by decide) rfl (by decide) rfl

/-! ## pomodoro.py: configuration, state and the timer state machine.

Timestamps (`datetime.now()`) are modelled as integer seconds passed in as an
explicit `now` argument; the `pomodoro_sessions` table insert performed by
`_persist_session` is modelled as appending to an explicit log list. -/

/-- Embeds the `PomodoroConfig` dataclass. -/
structure PomodoroConfig where
  focus_minutes : Int
  short_break_minutes : Int
  long_break_minutes : Int
  long_break_interval : Int
  deriving DecidableEq, Repr

/-- Embeds the `PomodoroState` dataclass (the `ticker_id` UI guard field is
not part of the timer semantics and is omitted). -/
structure PomodoroState where
  mode : String
  time_left_sec : Int
  cycle_count : Int
  total_focus_completed : Int
  is_running : Bool
  bound_task_id : Option Int
  current_session_start : Option Int
  deriving DecidableEq, Repr

/-- Embeds a row of the `pomodoro_sessions` table as inserted by
`_persist_session`. -/
structure SessionLog where
  task_id : Option Int
  started_at : Int
  ended_at : Int
  duration_minutes : Int
  notes : String
  deriving DecidableEq, Repr

/-- Embeds the default state built by `_ensure_session_state`: mode `focus`,
`time_left_sec = cfg.focus_minutes * 60`, not running. -/
def initial_state (cfg : PomodoroConfig) : PomodoroState :=
  { mode := "focus", time_left_sec := cfg.focus_minutes * 60, cycle_count := 0,
    total_focus_completed := 0, is_running := false, bound_task_id := none,
    current_session_start := none }

/-- Embeds `_transition_to_next(cfg, state)`: leaving `focus` increments both
counters and picks `long_break` when `long_break_interval > 0` and the new
`cycle_count` is a multiple of it, else `short_break`; leaving a break goes
back to `focus`; the new budget is `max(1, minutes * 60)`. -/
def transition_to_next (cfg : PomodoroConfig) (s : PomodoroState) : PomodoroState :=
  if s.mode = "focus" then
    let s1 := { s with total_focus_completed := s.total_focus_completed + 1,
                       cycle_count := s.cycle_count + 1 }
    if 0 < cfg.long_break_interval ∧ s1.cycle_count % cfg.long_break_interval = 0 then
      { s1 with mode := "long_break", time_left_sec := max 1 (cfg.long_break_minutes * 60) }
    else
      { s1 with mode := "short_break", time_left_sec := max 1 (cfg.short_break_minutes * 60) }
  else
    { s with mode := "focus", time_left_sec := max 1 (cfg.focus_minutes * 60) }

/-- Embeds `_complete_current_interval_and_log(state)`: when an interval is
open, append one session row with `duration_minutes = max(1, elapsed // 60)`
(Python floor division) and the note built from the old mode, then clear the
interval start; otherwise do nothing. -/
def complete_current_interval_and_log (now : Int) (s : PomodoroState)
    (log : List SessionLog) : PomodoroState × List SessionLog :=
  match s.current_session_start with
  | none => (s, log)
  | some start =>
      let dur_minutes := max 1 (Int.fdiv (now - start) 60)
      ({ s with current_session_start := none },
       log ++ [{ task_id := s.bound_task_id, started_at := start, ended_at := now,
                 duration_minutes := dur_minutes, notes := s.mode ++ " completed" }])

/-- Embeds `_tick_once()`: no-op unless running; decrement the budget when
positive; at zero, log the just-finished interval, transition, and open the
new interval at `now`; a non-positive budget is clamped to 0. -/
def tick_once (now : Int) (cfg : PomodoroConfig) (s : PomodoroState)
    (log : List SessionLog) : PomodoroState × List SessionLog :=
  if ¬ s.is_running then (s, log)
  else if 0 < s.time_left_sec then
    let s1 := { s with time_left_sec := s.time_left_sec - 1 }
    if s1.time_left_sec = 0 then
      let cl := complete_current_interval_and_log now s1 log
      let s2 := transition_to_next cfg cl.1
      ({ s2 with current_session_start := some now }, cl.2)
    else (s1, log)
  else ({ s with time_left_sec := 0 }, log)

/-- Model of the `bound_task_id` argument of `start_timer`: either an object
`int()` converts (to the given integer) or one on which `int()` raises. -/
inductive TaskIdArg where
  | intLike (n : Int)
  | nonNumeric
  deriving DecidableEq, Repr

/-- Embeds the `int(bound_task_id)` conversion: the converted value, or
`none` for the exception case. -/
def int_of_arg : TaskIdArg → Option Int
  | TaskIdArg.intLike n => some n
  | TaskIdArg.nonNumeric => none

/-- Embeds `start_timer(bound_task_id=None)`: when not running, set running,
open an interval if none is open, and when an id argument was passed store
`int(arg)` or `None` when the conversion raises (the exception is swallowed);
when already running, do nothing. -/
def start_timer (now : Int) (arg : Option TaskIdArg) (s : PomodoroState) : PomodoroState :=
  if ¬ s.is_running then
    let s1 := { s with is_running := true }
    let s2 := if s1.current_session_start = none
              then { s1 with current_session_start := some now } else s1
    match arg with
    | none => s2
    | some a => { s2 with bound_task_id := int_of_arg a }
  else s

/-- Embeds `pause_timer()`. -/
def pause_timer (s : PomodoroState) : PomodoroState :=
  if s.is_running then { s with is_running := false } else s

/-- Embeds `reset_timer()`: stop; when an interval is open, log it when at
least 60 seconds elapsed, else discard it; restore `time_left_sec` to the
full budget of the current mode. -/
def reset_timer (now : Int) (cfg : PomodoroConfig) (s : PomodoroState)
    (log : List SessionLog) : PomodoroState × List SessionLog :=
  let s1 := { s with is_running := false }
  let step :=
    match s1.current_session_start with
    | some start =>
        if 60 ≤ now - start then complete_current_interval_and_log now s1 log
        else ({ s1 with current_session_start := none }, log)
    | none => (s1, log)
  let s2 :=
    if step.1.mode = "focus" then { step.1 with time_left_sec := cfg.focus_minutes * 60 }
    else if step.1.mode = "short_break" then
      { step.1 with time_left_sec := cfg.short_break_minutes * 60 }
    else { step.1 with time_left_sec := cfg.long_break_minutes * 60 }
  (s2, step.2)

/-- Embeds `apply_config(focus, short, long, interval)`: clamp all four
values to at least 1, install the new config, and only when not running
reset `time_left_sec` to the new budget of the current mode. -/
def apply_config (focus short long interval : Int) (s : PomodoroState) :
    PomodoroConfig × PomodoroState :=
  let cfg : PomodoroConfig :=
    { focus_minutes := max 1 focus, short_break_minutes := max 1 short,
      long_break_minutes := max 1 long, long_break_interval := max 1 interval }
  if ¬ s.is_running then
    if s.mode = "focus" then (cfg, { s with time_left_sec := cfg.focus_minutes * 60 })
    else if s.mode = "short_break" then
      (cfg, { s with time_left_sec := cfg.short_break_minutes * 60 })
    else (cfg, { s with time_left_sec := cfg.long_break_minutes * 60 })
  else (cfg, s)

/-- Embeds `switch_mode(new_mode)`: no-op for an unrecognized mode; otherwise
stop, log or discard the abandoned interval with the same 60-second rule as
`reset_timer`, set the new mode and its full budget. -/
def switch_mode (now : Int) (new_mode : String) (cfg : PomodoroConfig)
    (s : PomodoroState) (log : List SessionLog) : PomodoroState × List SessionLog :=
  if ¬ (new_mode = "focus" ∨ new_mode = "short_break" ∨ new_mode = "long_break") then (s, log)
  else
    let s1 := { s with is_running := false }
    let step :=
      match s1.current_session_start with
      | some start =>
          if 60 ≤ now - start then
            let cl := complete_current_interval_and_log now s1 log
            ({ cl.1 with current_session_start := none }, cl.2)
          else ({ s1 with current_session_start := none }, log)
      | none => (s1, log)
    let s2 := { step.1 with mode := new_mode }
    let s3 :=
      if new_mode = "focus" then { s2 with time_left_sec := cfg.focus_minutes * 60 }
      else if new_mode = "short_break" then
        { s2 with time_left_sec := cfg.short_break_minutes * 60 }
      else { s2 with time_left_sec := cfg.long_break_minutes * 60 }
    (s3, step.2)

/-- Runs the per-second ticker (`_ticker_loop` invoking `_tick_once` once a
second) for the given number of ticks, advancing the clock by one second per
tick. -/
def run_ticks (cfg : PomodoroConfig) :
    Nat → Int → PomodoroState × List SessionLog → PomodoroState × List SessionLog
  | 0, _, sl => sl
  | Nat.succ n, now, sl => run_ticks cfg n (now + 1) (tick_once now cfg sl.1 sl.2)

/-- Duration in minutes the code associates with a mode (the branching used
at every budget reset site in pomodoro.py). -/
def duration_minutes_for (cfg : PomodoroConfig) (mode : String) : Int :=
  if mode = "focus" then cfg.focus_minutes
  else if mode = "short_break" then cfg.short_break_minutes
  else cfg.long_break_minutes

/-- Modes of the four breaks entered when a freshly started timer with
one-minute durations and `long_break_interval = 4` runs through four focus
completions (checkpoints one tick after each focus interval ends). -/
def four_cycle_break_modes : List String :=
  let cfg : PomodoroConfig := ⟨1, 1, 1, 4⟩
  let begun := (start_timer 0 none (initial_state cfg), ([] : List SessionLog))
  [(run_ticks cfg 60 0 begun).1.mode, (run_ticks cfg 180 0 begun).1.mode,
   (run_ticks cfg 300 0 begun).1.mode, (run_ticks cfg 420 0 begun).1.mode]

theorem complete_state_eq (now : Int) (s : PomodoroState) (log : List SessionLog) :
    (complete_current_interval_and_log now s log).1
      = { s with current_session_start := none } := by
  rcases s with ⟨m, t, c, tf, ir, b, css⟩
  cases css <;> rfl

/-- C6: apply_config stores max(1, x) for each of the four values, and resets
time_left_sec to the new budget of the current mode exactly when the timer is
not running; when running, time_left_sec is untouched. -/
theorem apply_config_clamps_and_resets_iff_idle (focus short long interval : Int)
    (s : PomodoroState) :
    (apply_config focus short long interval s).1
      = ⟨max 1 focus, max 1 short, max 1 long, max 1 interval⟩ ∧
    (apply_config focus short long interval s).2.time_left_sec
      = (if s.is_running then s.time_left_sec
         else if s.mode = "focus" then max 1 focus * 60
         else if s.mode = "short_break" then max 1 short * 60
         else max 1 long * 60) := by
  unfold apply_config
  by_cases hr : s.is_running
  · simp [hr]
  · simp only [hr, Bool.false_eq_true, not_false_eq_true, if_true, if_false]
    by_cases hm : s.mode = "focus"
    · simp [hm]
    · by_cases hm2 : s.mode = "short_break" <;> simp [hm, hm2]

/-- C9: for every recognized mode value, switch_mode sets running to false:
a manual mode switch always stops a running timer. -/
theorem switch_mode_stops_timer (now : Int) (new_mode : String) (cfg : PomodoroConfig)
    (s : PomodoroState) (log : List SessionLog)
    (h : new_mode = "focus" ∨ new_mode = "short_break" ∨ new_mode = "long_break") :
    (switch_mode now new_mode cfg s log).1.is_running = false := by
  rcases s with ⟨m, t, c, tf, ir, b, css⟩
  unfold switch_mode
  rw [if_neg (not_not_intro h)]
  cases css <;>
    simp only [complete_state_eq] <;>
    split_ifs <;> rfl

/-- Witness for C9: switching a running short-break timer to focus stops it. -/
theorem switch_mode_stops_timer_witness :
    (switch_mode 0 "focus" ⟨25, 5, 15, 4⟩
      ⟨"short_break", 30, 0, 0, true, none, none⟩ []).1.is_running = false :=
  switch_mode_stops_timer 0 "focus" ⟨25, 5, 15, 4⟩
    ⟨"short_break", 30, 0, 0, true, none, none⟩ [] (Or.inl rfl)

/-- C8: starting the timer with a non-numeric task id succeeds, leaves the
binding unset (None), and still performs the other effects of start: running
becomes true and an interval is opened at now when none is open (an already
open interval is kept); mode and remaining time are unchanged. -/
theorem start_timer_invalid_id_ignored (now : Int) (s : PomodoroState)
    (hrun : s.is_running = false) :
    (start_timer now (some TaskIdArg.nonNumeric) s).is_running = true ∧
    (start_timer now (some TaskIdArg.nonNumeric) s).bound_task_id = none ∧
    (start_timer now (some TaskIdArg.nonNumeric) s).current_session_start
      = some (s.current_session_start.getD now) ∧
    (start_timer now (some TaskIdArg.nonNumeric) s).mode = s.mode ∧
    (start_timer now (some TaskIdArg.nonNumeric) s).time_left_sec = s.time_left_sec := by
  rcases s with ⟨m, t, c, tf, ir, b, css⟩
  simp only at hrun
  subst hrun
  unfold start_timer int_of_arg
  cases css <;> simp

/-- Witness for C8: starting an idle timer with a non-numeric id clears a
stale binding, starts the timer and opens an interval at now. -/
theorem start_timer_invalid_id_ignored_witness :
    (start_timer 10 (some TaskIdArg.nonNumeric)
        ⟨"focus", 1500, 0, 0, false, some 7, none⟩).is_running = true ∧
    (start_timer 10 (some TaskIdArg.nonNumeric)
        ⟨"focus", 1500, 0, 0, false, some 7, none⟩).bound_task_id = none ∧
    (start_timer 10 (some TaskIdArg.nonNumeric)
        ⟨"focus", 1500, 0, 0, false, some 7, none⟩).current_session_start = some 10 ∧
    (start_timer 10 (some TaskIdArg.nonNumeric)
        ⟨"focus", 1500, 0, 0, false, some 7, none⟩).mode = "focus" ∧
    (start_timer 10 (some TaskIdArg.nonNumeric)
        ⟨"focus", 1500, 0, 0, false, some 7, none⟩).time_left_sec = 1500 :=
  start_timer_invalid_id_ignored 10 ⟨"focus", 1500, 0, 0, false, some 7, none⟩ rfl

/-- C4: with an open interval, reset stops the timer; an interval shorter
than 60 elapsed seconds is discarded unlogged, one of at least 60 seconds is
logged as exactly one entry with duration max(1, elapsed // 60); in both
cases the remaining time is restored to the full budget of the current mode. -/
theorem reset_timer_logs_only_long_intervals (now start : Int) (cfg : PomodoroConfig)
    (s : PomodoroState) (log : List SessionLog)
    (hopen : s.current_session_start = some start) :
    (reset_timer now cfg s log).1.is_running = false ∧
    (now - start < 60 →
      (reset_timer now cfg s log).2 = log ∧
      (reset_timer now cfg s log).1.current_session_start = none) ∧
    (60 ≤ now - start →
      (reset_timer now cfg s log).2
        = log ++ [{ task_id := s.bound_task_id, started_at := start, ended_at := now,
                    duration_minutes := max 1 (Int.fdiv (now - start) 60),
                    notes := s.mode ++ " completed" }] ∧
      (reset_timer now cfg s log).1.current_session_start = none) ∧
    (reset_timer now cfg s log).1.time_left_sec = duration_minutes_for cfg s.mode * 60 := by
  rcases s with ⟨m, t, c, tf, ir, b, css⟩
  simp only at hopen
  subst hopen
  by_cases hel : 60 ≤ now - start
  · have hred : reset_timer now cfg ⟨m, t, c, tf, ir, b, some start⟩ log
        = ({ mode := m,
             time_left_sec := (if m = "focus" then cfg.focus_minutes * 60
               else if m = "short_break" then cfg.short_break_minutes * 60
               else cfg.long_break_minutes * 60),
             cycle_count := c, total_focus_completed := tf, is_running := false,
             bound_task_id := b, current_session_start := none },
           log ++ [{ task_id := b, started_at := start, ended_at := now,
                     duration_minutes := max 1 (Int.fdiv (now - start) 60),
                     notes := m ++ " completed" }]) := by
      unfold reset_timer complete_current_interval_and_log
      simp only [hel, if_true]
      split_ifs <;> simp_all
    refine ⟨?_, fun hlt => absurd hel (by omega), fun _ => ⟨?_, ?_⟩, ?_⟩ <;>
      rw [hred] <;> simp [duration_minutes_for] <;> split_ifs <;> rfl
  · have hred : reset_timer now cfg ⟨m, t, c, tf, ir, b, some start⟩ log
        = ({ mode := m,
             time_left_sec := (if m = "focus" then cfg.focus_minutes * 60
               else if m = "short_break" then cfg.short_break_minutes * 60
               else cfg.long_break_minutes * 60),
             cycle_count := c, total_focus_completed := tf, is_running := false,
             bound_task_id := b, current_session_start := none }, log) := by
      unfold reset_timer complete_current_interval_and_log
      simp only [hel, if_false]
      split_ifs <;> simp_all
    refine ⟨?_, fun _ => ⟨?_, ?_⟩, fun hge => absurd hge hel, ?_⟩ <;>
      rw [hred] <;> simp [duration_minutes_for] <;> split_ifs <;> rfl

/-- Witness for C4: a 61-second focus interval is logged with duration 1 and
the budget restored; a 30-second one is discarded unlogged. -/
theorem reset_timer_logs_only_long_intervals_witness :
    (reset_timer 61 ⟨25, 5, 15, 4⟩ ⟨"focus", 100, 0, 0, true, none, some 0⟩ []).1.is_running
        = false ∧
    (reset_timer 61 ⟨25, 5, 15, 4⟩ ⟨"focus", 100, 0, 0, true, none, some 0⟩ []).2
        = [{ task_id := none, started_at := 0, ended_at := 61, duration_minutes := 1,
             notes := "focus completed" }] ∧
    (reset_timer 61 ⟨25, 5, 15, 4⟩ ⟨"focus", 100, 0, 0, true, none, some 0⟩
        []).1.time_left_sec = 1500 ∧
    (reset_timer 30 ⟨25, 5, 15, 4⟩ ⟨"focus", 100, 0, 0, true, none, some 0⟩ []).2 = [] := by
  have h61 := reset_timer_logs_only_long_intervals 61 0 ⟨25, 5, 15, 4⟩
    ⟨"focus", 100, 0, 0, true, none, some 0⟩ [] rfl
  have h30 := reset_timer_logs_only_long_intervals 30 0 ⟨25, 5, 15, 4⟩
    ⟨"focus", 100, 0, 0, true, none, some 0⟩ [] rfl
  refine ⟨h61.1, ?_, ?_, ?_⟩
  · have := (h61.2.2.1 (by decide)).1
    simpa using this
  · have := h61.2.2.2
    simpa [duration_minutes_for] using this
  · exact (h30.2.1 (by decide)).1

set_option maxRecDepth 100000 in
/-- C3: when the running timer hits 0 on a tick: leaving focus increments
total_focus_completed and cycle_count by one and enters long_break exactly
when the new cycle_count is a multiple of long_break_interval, else
short_break; leaving a break enters focus; the new budget is always
max(1, minutes-for-new-mode * 60); and with long_break_interval = 4 four
consecutive focus completions give breaks short, short, short, long. -/
theorem timer_zero_transition (now : Int) (cfg : PomodoroConfig) (s : PomodoroState)
    (log : List SessionLog) (hrun : s.is_running = true) (hleft : s.time_left_sec = 1)
    (hiv : 0 < cfg.long_break_interval) :
    (s.mode = "focus" →
      (tick_once now cfg s log).1.total_focus_completed = s.total_focus_completed + 1 ∧
      (tick_once now cfg s log).1.cycle_count = s.cycle_count + 1 ∧
      ((tick_once now cfg s log).1.mode = "long_break"
        ↔ (s.cycle_count + 1) % cfg.long_break_interval = 0) ∧
      ((tick_once now cfg s log).1.mode = "short_break"
        ↔ ¬ (s.cycle_count + 1) % cfg.long_break_interval = 0)) ∧
    (s.mode ≠ "focus" → (tick_once now cfg s log).1.mode = "focus") ∧
    (tick_once now cfg s log).1.time_left_sec
      = max 1 (duration_minutes_for cfg ((tick_once now cfg s log).1.mode) * 60) ∧
    four_cycle_break_modes = ["short_break", "short_break", "short_break", "long_break"] := by
  rcases s with ⟨m, t, c, tf, ir, b, css⟩
  simp only at hrun hleft
  subst hrun
  subst hleft
  have hred : (tick_once now cfg ⟨m, 1, c, tf, true, b, css⟩ log).1
      = { transition_to_next cfg
            { mode := m, time_left_sec := 0, cycle_count := c, total_focus_completed := tf,
              is_running := true, bound_task_id := b, current_session_start := none }
          with current_session_start := some now } := by
    cases css <;> simp [tick_once, complete_current_interval_and_log]
  rw [hred]
  refine ⟨?_, ?_, ?_, ?_⟩
  · intro hm
    subst hm
    unfold transition_to_next
    by_cases hc : (c + 1) % cfg.long_break_interval = 0
    · simp [hiv, hc]
    · simp [hc]
  · intro hm
    unfold transition_to_next
    simp [hm]
  · unfold transition_to_next duration_minutes_for
    by_cases hm : m = "focus"
    · by_cases hc : (c + 1) % cfg.long_break_interval = 0
      · simp [hm, hiv, hc]
      · simp [hm, hc]
    · simp [hm]
  · decide

/-- Witness for C3: a focus interval completing with cycle_count 3 and
interval 4 makes the fourth completed cycle enter long_break with its full
budget. -/
theorem timer_zero_transition_witness :
    (tick_once 5 ⟨25, 5, 15, 4⟩ ⟨"focus", 1, 3, 3, true, none, some 0⟩ []).1.mode
        = "long_break" ∧
    (tick_once 5 ⟨25, 5, 15, 4⟩ ⟨"focus", 1, 3, 3, true, none, some 0⟩ []).1.cycle_count = 4 ∧
    (tick_once 5 ⟨25, 5, 15, 4⟩ ⟨"focus", 1, 3, 3, true, none, some 0⟩
        []).1.total_focus_completed = 4 ∧
    (tick_once 5 ⟨25, 5, 15, 4⟩ ⟨"focus", 1, 3, 3, true, none, some 0⟩ []).1.time_left_sec
        = 900 := by
  have h := timer_zero_transition 5 ⟨25, 5, 15, 4⟩ ⟨"focus", 1, 3, 3, true, none, some 0⟩ []
    rfl rfl (by decide)
  have hf := h.1 rfl
  have hm : (tick_once 5 ⟨25, 5, 15, 4⟩ ⟨"focus", 1, 3, 3, true, none, some 0⟩ []).1.mode
      = "long_break" := hf.2.2.1.mpr (by decide)
  refine ⟨hm, hf.2.1, hf.1, ?_⟩
  have ht := h.2.2.1
  rw [hm] at ht
  rw [ht]
  decide

end TaskSchedulerProof
